import Mathlib

/-!
# x/wasm module descriptor (`x/wasm/module.go`)

A shallow embedding of the lifecycle code of the wasm module: the startup
compatibility gate (`checkLibwasmVersion`, `getExpectedLibwasmVersion`), the
chaining of pre-run hooks (`chainPreRuns`), the option reader
(`ReadWasmConfig`), migration registration (`AppModule.RegisterServices`) and
genesis validation (`AppModuleBasic.ValidateGenesis`).

Conventions of the embedding:
* a Go `string` is its sequence of bytes (`Str`);
* a Go `error` value is `Option GoError`, `none` being `nil`;
* a Go function that may panic returns an `Outcome`;
* calls into collaborators with effects thread an explicit state `σ`;
* what the file imports from other packages (the coercion library, the codec,
  the configurator, the build information, the native runtime) is a parameter.
-/

namespace wasm

/-! ## Go values -/

/-- A Go string, which is a sequence of bytes. -/
abbrev Str := List UInt8

/-- The bytes of a string literal, in the UTF-8 encoding Go stores. -/
def goStr (s : String) : Str := s.toUTF8.data.toList

/-- A Go error value, observed through its `Error()` text. -/
structure GoError where
  msg : Str
deriving DecidableEq

/-- The value handed to `panic`. -/
inductive PanicValue where
  | str (s : Str)
  | err (e : GoError)
deriving DecidableEq

/-- How a call ends: it returns a value, or it panics. -/
inductive Outcome (α : Type) where
  | ret (a : α)
  | panic (v : PanicValue)
deriving DecidableEq

/-! ## Go standard library: `strings` -/

/-- Go `strings.HasPrefix s pre`: `s` begins with `pre`. -/
def strings.HasPrefix : Str → Str → Bool
  | _, [] => true
  | [], _ :: _ => false
  | c :: s, p :: pre => c == p && strings.HasPrefix s pre

/-- The search of `strings.Index`, from offset `i` of the original string:
the offset of the first occurrence of `substr`, or `-1`. -/
def strings.indexFrom (substr : Str) : Str → Nat → Int
  | [], i => if strings.HasPrefix [] substr then (i : Int) else -1
  | c :: s, i =>
    if strings.HasPrefix (c :: s) substr then (i : Int)
    else strings.indexFrom substr s (i + 1)

/-- Go `strings.Index s substr`. -/
def strings.Index (s substr : Str) : Int := strings.indexFrom substr s 0

/-- Go `strings.Contains s substr`, which is `Index(s, substr) >= 0`. -/
def strings.Contains (s substr : Str) : Bool := decide (strings.Index s substr ≥ 0)

/-! ## Go standard library: `runtime/debug` -/

/-- Go `debug.Module`: one module of the build, `Replace` being the module
that replaces it, when there is one. -/
inductive Module where
  | mk (Path Version Sum : Str) (Replace : Option Module)

/-- The field `Path` of a module. -/
def Module.Path : Module → Str
  | .mk p _ _ _ => p

/-- The field `Version` of a module. -/
def Module.Version : Module → Str
  | .mk _ v _ _ => v

/-- The field `Sum` of a module. -/
def Module.Sum : Module → Str
  | .mk _ _ s _ => s

/-- The field `Replace` of a module. -/
def Module.Replace : Module → Option Module
  | .mk _ _ _ r => r

/-- Go `debug.BuildInfo`, the build information of the running binary. -/
structure BuildInfo where
  GoVersion : Str
  Path : Str
  Main : Module
  Deps : List Module

/-! ## The compatibility gate -/

/-- The module path of the native runtime dependency, as the source spells it. -/
def wasmvmPath : Str := goStr "github.com/CosmWasm/wasmvm"

/-- The loop of `getExpectedLibwasmVersion` over `buildInfo.Deps`, with the
`return ""` that follows it. -/
def getExpectedLibwasmVersion.loop : List Module → Str
  | [] => []
  | d :: ds =>
    if d.Path ≠ wasmvmPath then getExpectedLibwasmVersion.loop ds
    else
      match d.Replace with
      | some r => r.Version
      | none => d.Version

/-- The function `getExpectedLibwasmVersion`; `readBuildInfo` is what
`debug.ReadBuildInfo()` gives, `none` when `ok` is false. -/
def getExpectedLibwasmVersion (readBuildInfo : Option BuildInfo) : Outcome Str :=
  match readBuildInfo with
  | none => .panic (.str (goStr "can't read build info"))
  | some buildInfo => .ret (getExpectedLibwasmVersion.loop buildInfo.Deps)

/-- The mismatch message,
`fmt.Errorf("libwasmversion mismatch. got: %s; expected: %s", got, expected)`. -/
def mismatchError (wasmVersion wasmExpectedVersion : Str) : GoError :=
  ⟨goStr "libwasmversion mismatch. got: " ++ wasmVersion ++ goStr "; expected: "
    ++ wasmExpectedVersion⟩

/-- The function `checkLibwasmVersion`; `libwasmvmVersion` is what
`wasmvm.LibwasmvmVersion()` returns (version and error), `readBuildInfo` what
`debug.ReadBuildInfo()` gives. The command and its arguments are not used. -/
def checkLibwasmVersion (libwasmvmVersion : Str × Option GoError)
    (readBuildInfo : Option BuildInfo) : Outcome (Option GoError) :=
  match libwasmvmVersion with
  | (_, some err) =>
    .ret (some ⟨goStr "unable to retrieve libwasmversion " ++ err.msg⟩)
  | (wasmVersion, none) =>
    match getExpectedLibwasmVersion readBuildInfo with
    | .panic v => .panic v
    | .ret wasmExpectedVersion =>
      if wasmExpectedVersion = [] then
        .ret (some ⟨goStr "wasmvm module not exist"⟩)
      else if !strings.Contains wasmExpectedVersion wasmVersion then
        .ret (some (mismatchError wasmVersion wasmExpectedVersion))
      else .ret none

/-! ## Chained pre-run hooks -/

/-- The type `preRunFn`: a hook gets the command and its arguments, acts on the
state of the process, and returns an error value (or panics). -/
abbrev preRunFn (Cmd σ : Type) := Cmd → List Str → σ → σ × Outcome (Option GoError)

/-- The function `chainPreRuns`; a `nil` function value is `none`. -/
def chainPreRuns {Cmd σ : Type} : List (Option (preRunFn Cmd σ)) → preRunFn Cmd σ
  | [], _, _, s => (s, .ret none)
  | none :: pfns, cmd, args, s => chainPreRuns pfns cmd args s
  | some pfn :: pfns, cmd, args, s =>
    match pfn cmd args s with
    | (s1, .ret none) => chainPreRuns pfns cmd args s1
    | (s1, .ret (some err)) => (s1, .ret (some err))
    | (s1, .panic v) => (s1, .panic v)

/-- The hook `checkLibwasmVersion` as a `preRunFn`: it reads the runtime version
and the build information of the process and leaves the state as it is. -/
def checkLibwasmVersionFn {Cmd σ : Type} (libwasmvmVersion : σ → Str × Option GoError)
    (readBuildInfo : σ → Option BuildInfo) : preRunFn Cmd σ :=
  fun _ _ s => (s, checkLibwasmVersion (libwasmvmVersion s) (readBuildInfo s))

/-- The hook that `AddModuleInitFlags` installs as `startCmd.PreRunE`:
`chainPreRuns(checkLibwasmVersion, startCmd.PreRunE)`. -/
def AddModuleInitFlags.PreRunE {Cmd σ : Type} (libwasmvmVersion : σ → Str × Option GoError)
    (readBuildInfo : σ → Option BuildInfo) (old : Option (preRunFn Cmd σ)) : preRunFn Cmd σ :=
  chainPreRuns [some (checkLibwasmVersionFn libwasmvmVersion readBuildInfo), old]

/-! ## The option reader -/

/-- A value of type `interface{}` as an option source hands it out. -/
inductive Value where
  | str (s : Str)
  | bool (b : Bool)
  | int (i : Int)
  | uint (n : Nat)
  | other (tag : Nat)
deriving DecidableEq

/-- The interface `servertypes.AppOptions`: `Get` returns the value of an
option, `none` standing for the `nil` interface value. -/
structure AppOptions where
  Get : Str → Option Value

/-- The struct `types.WasmConfig`, with the four fields the reader assigns. -/
structure WasmConfig where
  SimulationGasLimit : Option Nat
  SmartQueryGasLimit : Nat
  MemoryCacheSize : Nat
  ContractDebugMode : Bool
deriving DecidableEq

/-- The coercions of the external package `cast` that the reader calls; each
returns a value and an error, as in Go. -/
structure Caster where
  ToUint32E : Value → Nat × Option GoError
  ToUint64E : Value → Nat × Option GoError
  ToBoolE : Value → Bool × Option GoError

/-- The option name `flagWasmMemoryCacheSize`. -/
def flagWasmMemoryCacheSize : Str := goStr "wasm.memory_cache_size"

/-- The option name `flagWasmQueryGasLimit`. -/
def flagWasmQueryGasLimit : Str := goStr "wasm.query_gas_limit"

/-- The option name `flagWasmSimulationGasLimit`. -/
def flagWasmSimulationGasLimit : Str := goStr "wasm.simulation_gas_limit"

/-- The fourth step of `ReadWasmConfig`: the host flag `server.FlagTrace`. -/
def ReadWasmConfig.trace (cast : Caster) (flagTrace : Str) (opts : AppOptions)
    (cfg : WasmConfig) : WasmConfig × Option GoError :=
  match opts.Get flagTrace with
  | some v =>
    match cast.ToBoolE v with
    | (b, some err) => ({ cfg with ContractDebugMode := b }, some err)
    | (b, none) => ({ cfg with ContractDebugMode := b }, none)
  | none => (cfg, none)

/-- The third step of `ReadWasmConfig`: the simulation gas limit, where the
empty string is skipped. -/
def ReadWasmConfig.simulation (cast : Caster) (flagTrace : Str) (opts : AppOptions)
    (cfg : WasmConfig) : WasmConfig × Option GoError :=
  match opts.Get flagWasmSimulationGasLimit with
  | some v =>
    if v ≠ .str [] then
      match cast.ToUint64E v with
      | (_, some err) => (cfg, some err)
      | (limit, none) =>
        ReadWasmConfig.trace cast flagTrace opts { cfg with SimulationGasLimit := some limit }
    else ReadWasmConfig.trace cast flagTrace opts cfg
  | none => ReadWasmConfig.trace cast flagTrace opts cfg

/-- The second step of `ReadWasmConfig`: the query gas limit. -/
def ReadWasmConfig.query (cast : Caster) (flagTrace : Str) (opts : AppOptions)
    (cfg : WasmConfig) : WasmConfig × Option GoError :=
  match opts.Get flagWasmQueryGasLimit with
  | some v =>
    match cast.ToUint64E v with
    | (n, some err) => ({ cfg with SmartQueryGasLimit := n }, some err)
    | (n, none) =>
      ReadWasmConfig.simulation cast flagTrace opts { cfg with SmartQueryGasLimit := n }
  | none => ReadWasmConfig.simulation cast flagTrace opts cfg

/-- The function `ReadWasmConfig`. `defaults` is what `types.DefaultWasmConfig()`
returns and `flagTrace` the constant `server.FlagTrace`; the result is the pair
`(cfg, err)` of the Go function. -/
def ReadWasmConfig (cast : Caster) (defaults : WasmConfig) (flagTrace : Str)
    (opts : AppOptions) : WasmConfig × Option GoError :=
  match opts.Get flagWasmMemoryCacheSize with
  | some v =>
    match cast.ToUint32E v with
    | (n, some err) => ({ defaults with MemoryCacheSize := n }, some err)
    | (n, none) =>
      ReadWasmConfig.query cast flagTrace opts { defaults with MemoryCacheSize := n }
  | none => ReadWasmConfig.query cast flagTrace opts defaults

/-- Modelled from the spec: `types.DefaultWasmConfig`, which is not in the file.
The cache size and the query gas ceiling have a provided default, taken here as
arguments together with the debug mode; the simulation gas ceiling is unset by
default. -/
def DefaultWasmConfig (memoryCacheSize smartQueryGasLimit : Nat) (contractDebugMode : Bool) :
    WasmConfig :=
  { SimulationGasLimit := none
    SmartQueryGasLimit := smartQueryGasLimit
    MemoryCacheSize := memoryCacheSize
    ContractDebugMode := contractDebugMode }

/-! ## Migration registration -/

/-- The value `keeper.NewMigrator(*am.keeper, am.legacySubspace)`. -/
structure Migrator (K S : Type) where
  keeper : K
  legacySubspace : S
deriving DecidableEq

/-- The two method values of the migrator that are registered as handlers. -/
inductive MigrationHandler (K S : Type) where
  | Migrate1to2 (m : Migrator K S)
  | Migrate2to3 (m : Migrator K S)
deriving DecidableEq

/-- The interface `module.Configurator` as `RegisterServices` uses it, acting
on a state `σ` of the host. -/
structure Configurator (K S σ : Type) where
  RegisterMsgServer : K → σ → σ
  RegisterQueryServer : K → σ → σ
  RegisterMigration : Str → Nat → MigrationHandler K S → σ → σ × Option GoError

/-- The fields of the struct `AppModule` that `RegisterServices` reads. -/
structure AppModule (K S : Type) where
  keeper : K
  legacySubspace : S

/-- The method `ConsensusVersion`. -/
def AppModule.ConsensusVersion {K S : Type} (_am : AppModule K S) : Nat := 3

/-- The method `RegisterServices`; `ModuleName` is the constant
`types.ModuleName`. -/
def AppModule.RegisterServices {K S σ : Type} (am : AppModule K S) (ModuleName : Str)
    (cfg : Configurator K S σ) (s : σ) : σ × Outcome Unit :=
  let s1 := cfg.RegisterMsgServer am.keeper s
  let s2 := cfg.RegisterQueryServer am.keeper s1
  let m : Migrator K S := ⟨am.keeper, am.legacySubspace⟩
  match cfg.RegisterMigration ModuleName 1 (.Migrate1to2 m) s2 with
  | (s3, some err) => (s3, .panic (.err err))
  | (s3, none) =>
    match cfg.RegisterMigration ModuleName 2 (.Migrate2to3 m) s3 with
    | (s4, some err) => (s4, .panic (.err err))
    | (s4, none) => (s4, .ret ())

/-! ## Genesis validation -/

/-- The method `UnmarshalJSON` of `codec.JSONCodec`: it fills the value behind
the pointer and returns an error value. -/
structure JSONCodec (G σ : Type) where
  UnmarshalJSON : Str → G → σ → σ × G × Option GoError

/-- The method `AppModuleBasic.ValidateGenesis`. `zero` is the zero value of
`GenesisState` that `var data GenesisState` declares and `ValidateGenesis` the
validator of the package, which the method calls last. -/
def AppModuleBasic.ValidateGenesis {G σ : Type} (zero : G)
    (ValidateGenesis : G → σ → σ × Option GoError) (marshaler : JSONCodec G σ)
    (message : Str) (s : σ) : σ × Option GoError :=
  match marshaler.UnmarshalJSON message zero s with
  | (s1, _, some err) => (s1, some err)
  | (s1, data, none) => ValidateGenesis data s1

/-! ## Concrete inputs -/

/-- A main module for concrete build information. -/
def sampleMain : Module := .mk (goStr "github.com/CosmWasm/wasmd") (goStr "(devel)") [] none

/-- Build information with the given dependencies. -/
def buildInfoOf (deps : List Module) : BuildInfo :=
  { GoVersion := goStr "go1.20", Path := goStr "github.com/CosmWasm/wasmd/cmd/wasmd",
    Main := sampleMain, Deps := deps }

/-- A dependency other than the native runtime. -/
def depCobra : Module := .mk (goStr "github.com/spf13/cobra") (goStr "v1.7.0") [] none

/-- The native runtime dependency at a nominal version. -/
def depWasmvm (version : Str) : Module := .mk wasmvmPath version [] none

/-- The native runtime dependency with a replacement. -/
def depWasmvmReplaced (version replacement : Str) : Module :=
  .mk wasmvmPath version [] (some (.mk (goStr "github.com/fork/wasmvm") replacement [] none))

/-- An option source given by a list of names and values; a name that is not
in the list has the `nil` value. -/
def optsOf (kvs : List (Str × Value)) : AppOptions := ⟨fun name => kvs.lookup name⟩

/-- The value of a string of decimal digits, `none` when a byte is not a digit. -/
def parseDigits : Str → Nat → Option Nat
  | [], acc => some acc
  | c :: cs, acc =>
    if 48 ≤ c.toNat ∧ c.toNat ≤ 57 then parseDigits cs (acc * 10 + (c.toNat - 48)) else none

/-- How a value is shown in the text of a coercion error. -/
def showValue : Value → Str
  | .str s => [34] ++ s ++ [34] ++ goStr " of type string"
  | .bool true => goStr "true of type bool"
  | .bool false => goStr "false of type bool"
  | .int _ => goStr "a value of type int"
  | .uint _ => goStr "a value of type uint"
  | .other _ => goStr "a value of another type"

/-- The error of a coercion that fails: it shows the value and the target type. -/
def castError (v : Value) (target : Str) : GoError :=
  ⟨goStr "unable to cast " ++ showValue v ++ goStr " to " ++ target⟩

/-- A coercion to an unsigned integer for concrete inputs, in the manner of the
package `cast`: decimal strings, non-negative integers and booleans coerce, the
empty string and everything else do not. -/
def sampleToUint (target : Str) (v : Value) : Nat × Option GoError :=
  match v with
  | .str [] => (0, some (castError v target))
  | .str (c :: cs) =>
    match parseDigits (c :: cs) 0 with
    | some n => (n, none)
    | none => (0, some (castError v target))
  | .bool b => (if b then 1 else 0, none)
  | .int i => if i < 0 then (0, some (castError v target)) else (i.toNat, none)
  | .uint n => (n, none)
  | .other _ => (0, some (castError v target))

/-- A coercion to a boolean for concrete inputs, in the manner of the package
`cast`. -/
def sampleToBool (v : Value) : Bool × Option GoError :=
  match v with
  | .str s =>
    if s = goStr "true" then (true, none)
    else if s = goStr "false" then (false, none)
    else (false, some (castError v (goStr "bool")))
  | .bool b => (b, none)
  | .int i => (decide (i ≠ 0), none)
  | .uint n => (decide (n ≠ 0), none)
  | .other _ => (false, some (castError v (goStr "bool")))

/-- The coercions used at concrete inputs. -/
def sampleCast : Caster :=
  { ToUint32E := sampleToUint (goStr "uint32")
    ToUint64E := sampleToUint (goStr "uint64")
    ToBoolE := sampleToBool }

/-- The name of the host flag at concrete inputs. -/
def sampleFlagTrace : Str := goStr "trace"

/-- Whether every hook of the list returns `nil`: the state after the non-nil
hooks have run in list order, each from the state the one before left, or
`none` as soon as one of them returns an error or panics. -/
def runsClean {Cmd σ : Type} (cmd : Cmd) (args : List Str) :
    List (Option (preRunFn Cmd σ)) → σ → Option σ
  | [], s => some s
  | none :: pfns, s => runsClean cmd args pfns s
  | some pfn :: pfns, s =>
    match pfn cmd args s with
    | (s1, .ret none) => runsClean cmd args pfns s1
    | _ => none

/-- A hook for concrete inputs: it writes its number to a log and returns the
given result. -/
def loggingHook (n : Nat) (result : Outcome (Option GoError)) : preRunFn Unit (List Nat) :=
  fun _ _ log => (log ++ [n], result)

/-- One call that `RegisterServices` makes on the configurator. -/
inductive Call (K S : Type) where
  | msgServer (k : K)
  | queryServer (k : K)
  | migration (moduleName : Str) (fromVersion : Nat) (handler : MigrationHandler K S)
deriving DecidableEq

/-- A configurator that records the calls made on it; `answer` gives the error
value of a registration from the calls made so far, that registration last. -/
def recorder {K S : Type} (answer : List (Call K S) → Option GoError) :
    Configurator K S (List (Call K S)) :=
  { RegisterMsgServer := fun k log => log ++ [.msgServer k]
    RegisterQueryServer := fun k log => log ++ [.queryServer k]
    RegisterMigration := fun name v h log =>
      (log ++ [.migration name v h], answer (log ++ [.migration name v h])) }

/-- The origin versions of the migrations in a record of calls, in call order. -/
def origins {K S : Type} : List (Call K S) → List Nat
  | [] => []
  | .migration _ v _ :: cs => v :: origins cs
  | _ :: cs => origins cs

/-- A codec for concrete inputs: a blob is the decimal text of a number, and
every decoding is counted in the state. -/
def digitCodec : JSONCodec Nat (Nat × Nat) :=
  ⟨fun message data s =>
    match parseDigits message 0 with
    | some n => ((s.1 + 1, s.2), n, none)
    | none => ((s.1 + 1, s.2), data, some ⟨goStr "invalid character"⟩)⟩

/-- A validator for concrete inputs: it accepts the even numbers, and every
validation is counted in the state. -/
def evenValidator (data : Nat) (s : Nat × Nat) : (Nat × Nat) × Option GoError :=
  ((s.1, s.2 + 1), if data % 2 = 0 then none else some ⟨goStr "odd genesis"⟩)

/-! ## Lemmas on `strings` -/

theorem strings.HasPrefix_iff (s pre : Str) : strings.HasPrefix s pre = true ↔ pre <+: s := by
  induction s generalizing pre with
  | nil =>
    cases pre with
    | nil => simp [strings.HasPrefix]
    | cons p pre => simp [strings.HasPrefix]
  | cons c s ih =>
    cases pre with
    | nil => simp [strings.HasPrefix]
    | cons p pre =>
      simp only [strings.HasPrefix, Bool.and_eq_true, beq_iff_eq, ih, List.cons_prefix_cons]
      constructor
      · rintro ⟨h1, h2⟩
        exact ⟨h1.symm, h2⟩
      · rintro ⟨h1, h2⟩
        exact ⟨h1.symm, h2⟩

theorem strings.indexFrom_nonneg_iff (substr s : Str) (i : Nat) :
    0 ≤ strings.indexFrom substr s i ↔ substr <:+: s := by
  induction s generalizing i with
  | nil =>
    unfold strings.indexFrom
    by_cases h : strings.HasPrefix [] substr = true
    · have hp := (strings.HasPrefix_iff [] substr).1 h
      simp only [h, if_true]
      exact ⟨fun _ => hp.isInfix, fun _ => Int.ofNat_nonneg i⟩
    · have hp : ¬ substr <+: [] := fun hp => h ((strings.HasPrefix_iff [] substr).2 hp)
      rw [if_neg h]
      constructor
      · intro h0
        exact absurd h0 (by decide)
      · intro hi
        have : substr = [] := List.infix_nil.1 hi
        exact absurd (this ▸ List.prefix_refl []) hp
  | cons c s ih =>
    unfold strings.indexFrom
    by_cases h : strings.HasPrefix (c :: s) substr = true
    · have hp := (strings.HasPrefix_iff (c :: s) substr).1 h
      simp only [h, if_true]
      exact ⟨fun _ => hp.isInfix, fun _ => Int.ofNat_nonneg i⟩
    · have hp : ¬ substr <+: c :: s := fun hp => h ((strings.HasPrefix_iff (c :: s) substr).2 hp)
      rw [if_neg h, ih (i + 1), List.infix_cons_iff]
      constructor
      · intro hi
        exact Or.inr hi
      · rintro (hi | hi)
        · exact absurd hi hp
        · exact hi

/-- Go `strings.Contains s substr` holds exactly when `substr` is a contiguous
part of `s`. -/
theorem strings.Contains_iff (s substr : Str) :
    strings.Contains s substr = true ↔ substr <:+: s := by
  unfold strings.Contains strings.Index
  rw [decide_eq_true_iff]
  exact strings.indexFrom_nonneg_iff substr s 0

/-! ## Lemmas on the compatibility gate -/

theorem getExpectedLibwasmVersion.loop_absent (deps : List Module)
    (h : ∀ d ∈ deps, d.Path ≠ wasmvmPath) : getExpectedLibwasmVersion.loop deps = [] := by
  induction deps with
  | nil => rfl
  | cons d ds ih =>
    have hd : d.Path ≠ wasmvmPath := h d (List.mem_cons_self d ds)
    simp only [getExpectedLibwasmVersion.loop, hd, ne_eq, not_false_eq_true, if_true]
    exact ih (fun x hx => h x (List.mem_cons_of_mem d hx))

theorem getExpectedLibwasmVersion.loop_first (pre post : List Module) (d : Module)
    (hpre : ∀ x ∈ pre, x.Path ≠ wasmvmPath) (hd : d.Path = wasmvmPath) :
    getExpectedLibwasmVersion.loop (pre ++ d :: post) =
      (match d.Replace with
       | some r => r.Version
       | none => d.Version) := by
  induction pre with
  | nil => simp [getExpectedLibwasmVersion.loop, hd]
  | cons x xs ih =>
    have hx : x.Path ≠ wasmvmPath := hpre x (List.mem_cons_self x xs)
    simp only [List.cons_append, getExpectedLibwasmVersion.loop, hx, ne_eq, not_false_eq_true,
      if_true]
    exact ih (fun y hy => hpre y (List.mem_cons_of_mem x hy))

theorem getExpectedLibwasmVersion.loop_filter (deps : List Module) :
    getExpectedLibwasmVersion.loop (deps.filter (fun d => decide (d.Path = wasmvmPath))) =
      getExpectedLibwasmVersion.loop deps := by
  induction deps with
  | nil => rfl
  | cons d ds ih =>
    by_cases hd : d.Path = wasmvmPath
    · simp [List.filter, getExpectedLibwasmVersion.loop, hd]
    · simp [List.filter, getExpectedLibwasmVersion.loop, hd, ih]

theorem mismatchError_mentions (actual expected : Str) :
    actual <:+: (mismatchError actual expected).msg ∧
      expected <:+: (mismatchError actual expected).msg := by
  constructor
  · exact ⟨goStr "libwasmversion mismatch. got: ", goStr "; expected: " ++ expected, by
      simp [mismatchError]⟩
  · exact ⟨goStr "libwasmversion mismatch. got: " ++ actual ++ goStr "; expected: ", [], by
      simp [mismatchError]⟩

/-! ## The compatibility gate: claims -/

/-- C1: when the expected version read from the build information is not empty
and the native runtime reports its version `actual`, `checkLibwasmVersion`
returns `nil` exactly when `actual` is a substring of the expected version;
otherwise it returns the mismatch error, whose text contains both the actual
and the expected version. -/
theorem checkLibwasmVersion_substring (expected actual : Str) (readBuildInfo : Option BuildInfo)
    (hexp : getExpectedLibwasmVersion readBuildInfo = .ret expected) (hne : expected ≠ []) :
    (checkLibwasmVersion (actual, none) readBuildInfo = .ret none ↔ actual <:+: expected) ∧
    (¬ actual <:+: expected →
      checkLibwasmVersion (actual, none) readBuildInfo
          = .ret (some (mismatchError actual expected)) ∧
        actual <:+: (mismatchError actual expected).msg ∧
        expected <:+: (mismatchError actual expected).msg) := by
  have hc := strings.Contains_iff expected actual
  by_cases hin : actual <:+: expected
  · have hb : strings.Contains expected actual = true := hc.2 hin
    have hres : checkLibwasmVersion (actual, none) readBuildInfo = .ret none := by
      simp [checkLibwasmVersion, hexp, hne, hb]
    exact ⟨⟨fun _ => hin, fun _ => hres⟩, fun h => absurd hin h⟩
  · have hb : strings.Contains expected actual = false := by
      cases hcb : strings.Contains expected actual with
      | false => rfl
      | true => exact absurd (hc.1 hcb) hin
    have hres : checkLibwasmVersion (actual, none) readBuildInfo
        = .ret (some (mismatchError actual expected)) := by
      simp [checkLibwasmVersion, hexp, hne, hb]
    refine ⟨⟨fun h => ?_, fun h => absurd h hin⟩, fun _ => ⟨hres, mismatchError_mentions actual expected⟩⟩
    rw [hres] at h
    cases h

/-- C1 at the build whose wasmvm dependency has version `1.2.3+meta`: the
runtime version `1.2.3` passes, the runtime version `1.2.4` is a mismatch. -/
theorem checkLibwasmVersion_substring_witness :
    checkLibwasmVersion (goStr "1.2.3", none)
        (some (buildInfoOf [depCobra, depWasmvm (goStr "1.2.3+meta")])) = .ret none ∧
    checkLibwasmVersion (goStr "1.2.4", none)
        (some (buildInfoOf [depCobra, depWasmvm (goStr "1.2.3+meta")]))
      = .ret (some (mismatchError (goStr "1.2.4") (goStr "1.2.3+meta"))) :=
  ⟨(checkLibwasmVersion_substring (goStr "1.2.3+meta") (goStr "1.2.3")
      (some (buildInfoOf [depCobra, depWasmvm (goStr "1.2.3+meta")])) (by decide) (by decide)).1.2
      ⟨[], goStr "+meta", by decide⟩,
   ((checkLibwasmVersion_substring (goStr "1.2.3+meta") (goStr "1.2.4")
      (some (buildInfoOf [depCobra, depWasmvm (goStr "1.2.3+meta")])) (by decide) (by decide)).2
      (fun h => by
        have hb := (strings.Contains_iff (goStr "1.2.3+meta") (goStr "1.2.4")).2 h
        revert hb
        decide)).1⟩

/-- C6: `getExpectedLibwasmVersion` returns, for the first dependency whose
path is the string `github.com/CosmWasm/wasmvm`, the version of its
replacement when it has one and its own version otherwise; the dependencies
with any other path do not change the result. -/
theorem getExpectedLibwasmVersion_entry (buildInfo : BuildInfo) :
    (∀ (pre post : List Module) (d : Module),
      buildInfo.Deps = pre ++ d :: post →
      (∀ x ∈ pre, x.Path ≠ goStr "github.com/CosmWasm/wasmvm") →
      d.Path = goStr "github.com/CosmWasm/wasmvm" →
      getExpectedLibwasmVersion (some buildInfo) =
        .ret (match d.Replace with
              | some r => r.Version
              | none => d.Version)) ∧
    getExpectedLibwasmVersion
        (some { buildInfo with
                Deps := buildInfo.Deps.filter
                  (fun d => decide (d.Path = goStr "github.com/CosmWasm/wasmvm")) })
      = getExpectedLibwasmVersion (some buildInfo) := by
  have hpath : goStr "github.com/CosmWasm/wasmvm" = wasmvmPath := rfl
  rw [hpath]
  constructor
  · intro pre post d hdeps hpre hd
    simp only [getExpectedLibwasmVersion, hdeps]
    rw [getExpectedLibwasmVersion.loop_first pre post d hpre hd]
  · simp only [getExpectedLibwasmVersion]
    rw [getExpectedLibwasmVersion.loop_filter]

/-- C6 at concrete builds, the paths written out: the nominal version of the
entry `github.com/CosmWasm/wasmvm` is returned as it is, after an entry for
`github.com/CosmWasm/wasmvm/v2` and one for `github.com/cosmwasm/wasmvm`, which
are other paths; a replacement version wins over the nominal one; and a build
with only those other paths has no expected version. -/
theorem getExpectedLibwasmVersion_entry_witness :
    getExpectedLibwasmVersion
        (some (buildInfoOf
          [.mk (goStr "github.com/CosmWasm/wasmvm/v2") (goStr "v2.0.0") [] none,
           .mk (goStr "github.com/cosmwasm/wasmvm") (goStr "v0.9.0") [] none,
           .mk (goStr "github.com/CosmWasm/wasmvm") (goStr "v1.3.0") [] none,
           .mk (goStr "github.com/spf13/cobra") (goStr "v1.7.0") [] none]))
      = .ret (goStr "v1.3.0") ∧
    getExpectedLibwasmVersion
        (some (buildInfoOf
          [.mk (goStr "github.com/spf13/cobra") (goStr "v1.7.0") [] none,
           .mk (goStr "github.com/CosmWasm/wasmvm") (goStr "v1.3.0") []
             (some (.mk (goStr "github.com/fork/wasmvm") (goStr "v1.3.1-fork") [] none))]))
      = .ret (goStr "v1.3.1-fork") ∧
    getExpectedLibwasmVersion
        (some (buildInfoOf
          [.mk (goStr "github.com/CosmWasm/wasmvm/v2") (goStr "v2.0.0") [] none,
           .mk (goStr "github.com/cosmwasm/wasmvm") (goStr "v0.9.0") [] none]))
      = .ret [] :=
  ⟨(getExpectedLibwasmVersion_entry
      (buildInfoOf
        [.mk (goStr "github.com/CosmWasm/wasmvm/v2") (goStr "v2.0.0") [] none,
         .mk (goStr "github.com/cosmwasm/wasmvm") (goStr "v0.9.0") [] none,
         .mk (goStr "github.com/CosmWasm/wasmvm") (goStr "v1.3.0") [] none,
         .mk (goStr "github.com/spf13/cobra") (goStr "v1.7.0") [] none])).1
      [.mk (goStr "github.com/CosmWasm/wasmvm/v2") (goStr "v2.0.0") [] none,
       .mk (goStr "github.com/cosmwasm/wasmvm") (goStr "v0.9.0") [] none]
      [.mk (goStr "github.com/spf13/cobra") (goStr "v1.7.0") [] none]
      (.mk (goStr "github.com/CosmWasm/wasmvm") (goStr "v1.3.0") [] none)
      rfl (by decide) (by decide),
   (getExpectedLibwasmVersion_entry
      (buildInfoOf
        [.mk (goStr "github.com/spf13/cobra") (goStr "v1.7.0") [] none,
         .mk (goStr "github.com/CosmWasm/wasmvm") (goStr "v1.3.0") []
           (some (.mk (goStr "github.com/fork/wasmvm") (goStr "v1.3.1-fork") [] none))])).1
      [.mk (goStr "github.com/spf13/cobra") (goStr "v1.7.0") [] none] []
      (.mk (goStr "github.com/CosmWasm/wasmvm") (goStr "v1.3.0") []
        (some (.mk (goStr "github.com/fork/wasmvm") (goStr "v1.3.1-fork") [] none)))
      rfl (by decide) (by decide),
   ((getExpectedLibwasmVersion_entry
      (buildInfoOf
        [.mk (goStr "github.com/CosmWasm/wasmvm/v2") (goStr "v2.0.0") [] none,
         .mk (goStr "github.com/cosmwasm/wasmvm") (goStr "v0.9.0") [] none])).2).symm.trans
      (by decide)⟩

/-- C7: when the build information has no dependency with the wasmvm path and
the native runtime reports its version, `checkLibwasmVersion` returns the
error `wasmvm module not exist`: it does not succeed and it does not report a
mismatch. -/
theorem checkLibwasmVersion_absent (buildInfo : BuildInfo) (actual : Str)
    (habsent : ∀ d ∈ buildInfo.Deps, d.Path ≠ wasmvmPath) :
    checkLibwasmVersion (actual, none) (some buildInfo)
        = .ret (some ⟨goStr "wasmvm module not exist"⟩) ∧
    checkLibwasmVersion (actual, none) (some buildInfo) ≠ .ret none ∧
    ∀ expected : Str, checkLibwasmVersion (actual, none) (some buildInfo)
        ≠ .ret (some (mismatchError actual expected)) := by
  have hres : checkLibwasmVersion (actual, none) (some buildInfo)
      = .ret (some ⟨goStr "wasmvm module not exist"⟩) := by
    simp [checkLibwasmVersion, getExpectedLibwasmVersion,
      getExpectedLibwasmVersion.loop_absent buildInfo.Deps habsent]
  refine ⟨hres, ?_, ?_⟩
  · rw [hres]
    intro h
    cases h
  · intro expected h
    rw [hres] at h
    have hmsg : goStr "wasmvm module not exist" = (mismatchError actual expected).msg := by
      injection h with h1
      injection h1 with h2
      exact congrArg GoError.msg h2
    have hpre : goStr "libwasmversion mismatch. got: " <+: goStr "wasmvm module not exist" := by
      rw [hmsg]
      exact ⟨actual ++ goStr "; expected: " ++ expected, by simp [mismatchError]⟩
    revert hpre
    decide

/-- C7 at a build with one other dependency and the runtime version `1.2.3`. -/
theorem checkLibwasmVersion_absent_witness :
    checkLibwasmVersion (goStr "1.2.3", none) (some (buildInfoOf [depCobra]))
      = .ret (some ⟨goStr "wasmvm module not exist"⟩) :=
  (checkLibwasmVersion_absent (buildInfoOf [depCobra]) (goStr "1.2.3") (by decide)).1

/-- C8, as the code has it: when the build information cannot be read and the
native runtime reports its version, `checkLibwasmVersion` does not return an
error value, it panics with `can't read build info`; when the native runtime
fails to report its version, the error of that failure is returned before the
build information is read, whether it can be read or not. -/
theorem checkLibwasmVersion_no_build_info :
    (∀ actual : Str, checkLibwasmVersion (actual, none) none
        = .panic (.str (goStr "can't read build info"))) ∧
    (∀ (actual : Str) (err : GoError) (readBuildInfo : Option BuildInfo),
      checkLibwasmVersion (actual, some err) readBuildInfo
        = .ret (some ⟨goStr "unable to retrieve libwasmversion " ++ err.msg⟩)) :=
  ⟨fun _ => rfl, fun _ _ _ => rfl⟩

/-- C8 fails as stated: with unreadable build information and the runtime
version `1.2.3`, `checkLibwasmVersion` returns no error value at all. -/
theorem checkLibwasmVersion_no_build_info_counterexample :
    ¬ ∃ err : GoError, checkLibwasmVersion (goStr "1.2.3", none) none = .ret (some err) := by
  rintro ⟨err, h⟩
  cases h

/-! ## Chained pre-run hooks: claims -/

theorem chainPreRuns_append {Cmd σ : Type} (cmd : Cmd) (args : List Str)
    (pre rest : List (Option (preRunFn Cmd σ))) (s s1 : σ)
    (hpre : runsClean cmd args pre s = some s1) :
    chainPreRuns (pre ++ rest) cmd args s = chainPreRuns rest cmd args s1 := by
  induction pre generalizing s with
  | nil =>
    simp only [runsClean, Option.some.injEq] at hpre
    subst hpre
    rfl
  | cons p ps ih =>
    cases p with
    | none =>
      simp only [runsClean] at hpre
      simp only [List.cons_append, chainPreRuns]
      exact ih s hpre
    | some pfn =>
      simp only [runsClean] at hpre
      simp only [List.cons_append, chainPreRuns]
      rcases hrun : pfn cmd args s with ⟨s2, (_ | e) | v⟩
      · rw [hrun] at hpre
        exact ih s2 hpre
      · rw [hrun] at hpre
        cases hpre
      · rw [hrun] at hpre
        cases hpre

theorem runsClean_none {Cmd σ : Type} (cmd : Cmd) (args : List Str)
    (pfns : List (Option (preRunFn Cmd σ))) (s : σ) (h : runsClean cmd args pfns s = none) :
    ∃ (pre post : List (Option (preRunFn Cmd σ))) (f : preRunFn Cmd σ) (s1 : σ),
      pfns = pre ++ some f :: post ∧ runsClean cmd args pre s = some s1 ∧
        (f cmd args s1).2 ≠ .ret none := by
  induction pfns generalizing s with
  | nil => cases h
  | cons p ps ih =>
    cases p with
    | none =>
      simp only [runsClean] at h
      obtain ⟨pre, post, f, s1, hsplit, hclean, hfail⟩ := ih s h
      exact ⟨none :: pre, post, f, s1, by rw [hsplit]; rfl, by simpa [runsClean] using hclean,
        hfail⟩
    | some pfn =>
      simp only [runsClean] at h
      rcases hrun : pfn cmd args s with ⟨s2, (_ | e) | v⟩
      · rw [hrun] at h
        obtain ⟨pre, post, f, s1, hsplit, hclean, hfail⟩ := ih s2 h
        refine ⟨some pfn :: pre, post, f, s1, by rw [hsplit]; rfl, ?_, hfail⟩
        simp only [runsClean, hrun]
        exact hclean
      · exact ⟨[], ps, pfn, s, rfl, rfl, by rw [hrun]; intro hc; cases hc⟩
      · exact ⟨[], ps, pfn, s, rfl, rfl, by rw [hrun]; intro hc; cases hc⟩

theorem chainPreRuns_filter {Cmd σ : Type} (cmd : Cmd) (args : List Str)
    (pfns : List (Option (preRunFn Cmd σ))) (s : σ) :
    chainPreRuns (pfns.filter Option.isSome) cmd args s = chainPreRuns pfns cmd args s := by
  induction pfns generalizing s with
  | nil => rfl
  | cons p ps ih =>
    cases p with
    | none => simpa [List.filter, chainPreRuns] using ih s
    | some pfn =>
      simp only [List.filter, Option.isSome, chainPreRuns]
      rcases hrun : pfn cmd args s with ⟨s2, (_ | e) | v⟩
      · exact ih s2
      · rfl
      · rfl

/-- C4: the hook built by `chainPreRuns` runs the non-nil hooks in list order,
each from the state the one before left. When all of them return `nil` it
returns `nil`; when one returns an error after the ones before it returned
`nil`, it returns that error from the state that hook left, whatever follows
in the list; `nil` entries are skipped and the empty list gives `nil`. One of
the two cases applies unless a hook panics. -/
theorem chainPreRuns_first_failure {Cmd σ : Type} (cmd : Cmd) (args : List Str)
    (pfns : List (Option (preRunFn Cmd σ))) (s : σ) :
    (∀ s1, runsClean cmd args pfns s = some s1 →
      chainPreRuns pfns cmd args s = (s1, .ret none)) ∧
    (∀ (pre post : List (Option (preRunFn Cmd σ))) (f : preRunFn Cmd σ) (s1 s2 : σ)
        (err : GoError),
      pfns = pre ++ some f :: post → runsClean cmd args pre s = some s1 →
      f cmd args s1 = (s2, .ret (some err)) →
      chainPreRuns pfns cmd args s = (s2, .ret (some err))) ∧
    (runsClean cmd args pfns s = none →
      ∃ (pre post : List (Option (preRunFn Cmd σ))) (f : preRunFn Cmd σ) (s1 : σ),
        pfns = pre ++ some f :: post ∧ runsClean cmd args pre s = some s1 ∧
          (f cmd args s1).2 ≠ .ret none) ∧
    chainPreRuns (pfns.filter Option.isSome) cmd args s = chainPreRuns pfns cmd args s ∧
    chainPreRuns ([] : List (Option (preRunFn Cmd σ))) cmd args s = (s, .ret none) := by
  refine ⟨?_, ?_, runsClean_none cmd args pfns s, chainPreRuns_filter cmd args pfns s, rfl⟩
  · intro s1 hclean
    have h := chainPreRuns_append cmd args pfns [] s s1 hclean
    rw [List.append_nil] at h
    rw [h]
    rfl
  · intro pre post f s1 s2 err hsplit hclean hfail
    rw [hsplit, chainPreRuns_append cmd args pre (some f :: post) s s1 hclean]
    simp only [chainPreRuns, hfail]

/-- C4 at a list of four entries writing to a log: the first hook succeeds, the
`nil` entry is skipped, the third hook fails and the fourth never runs. -/
theorem chainPreRuns_first_failure_witness :
    chainPreRuns
        [some (loggingHook 1 (.ret none)), none,
         some (loggingHook 2 (.ret (some ⟨goStr "stop"⟩))), some (loggingHook 3 (.ret none))]
        () [] []
      = ([1, 2], .ret (some ⟨goStr "stop"⟩)) :=
  (chainPreRuns_first_failure () []
      [some (loggingHook 1 (.ret none)), none,
       some (loggingHook 2 (.ret (some ⟨goStr "stop"⟩))), some (loggingHook 3 (.ret none))]
      []).2.1
    [some (loggingHook 1 (.ret none)), none] [some (loggingHook 3 (.ret none))]
    (loggingHook 2 (.ret (some ⟨goStr "stop"⟩))) [1] [1, 2] ⟨goStr "stop"⟩ rfl rfl rfl

/-! ## The option reader: claims -/

theorem ReadWasmConfig.trace_ok (cast : Caster) (flagTrace : Str) (opts : AppOptions)
    (cfg : WasmConfig)
    (htrace : ∀ v, opts.Get flagTrace = some v → (cast.ToBoolE v).2 = none) :
    ReadWasmConfig.trace cast flagTrace opts cfg =
      ({ cfg with
         ContractDebugMode :=
           match opts.Get flagTrace with
           | some v => (cast.ToBoolE v).1
           | none => cfg.ContractDebugMode }, none) := by
  unfold ReadWasmConfig.trace
  rcases hget : opts.Get flagTrace with _ | v
  · rfl
  · have hv := htrace v hget
    rcases hc : cast.ToBoolE v with ⟨b, _ | e⟩
    · simp [hc]
    · rw [hc] at hv
      cases hv

theorem ReadWasmConfig.simulation_ok (cast : Caster) (flagTrace : Str) (opts : AppOptions)
    (cfg : WasmConfig)
    (hsim : ∀ v, opts.Get flagWasmSimulationGasLimit = some v → v ≠ .str [] →
      (cast.ToUint64E v).2 = none) :
    ReadWasmConfig.simulation cast flagTrace opts cfg =
      ReadWasmConfig.trace cast flagTrace opts
        { cfg with
          SimulationGasLimit :=
            match opts.Get flagWasmSimulationGasLimit with
            | some v => if v ≠ .str [] then some (cast.ToUint64E v).1 else cfg.SimulationGasLimit
            | none => cfg.SimulationGasLimit } := by
  unfold ReadWasmConfig.simulation
  rcases hget : opts.Get flagWasmSimulationGasLimit with _ | v
  · rfl
  · by_cases hv : v = .str []
    · simp [hv]
    · have hcv := hsim v hget hv
      rcases hc : cast.ToUint64E v with ⟨n, _ | e⟩
      · simp [hv, hc]
      · rw [hc] at hcv
        cases hcv

theorem ReadWasmConfig.query_ok (cast : Caster) (flagTrace : Str) (opts : AppOptions)
    (cfg : WasmConfig)
    (hquery : ∀ v, opts.Get flagWasmQueryGasLimit = some v → (cast.ToUint64E v).2 = none) :
    ReadWasmConfig.query cast flagTrace opts cfg =
      ReadWasmConfig.simulation cast flagTrace opts
        { cfg with
          SmartQueryGasLimit :=
            match opts.Get flagWasmQueryGasLimit with
            | some v => (cast.ToUint64E v).1
            | none => cfg.SmartQueryGasLimit } := by
  unfold ReadWasmConfig.query
  rcases hget : opts.Get flagWasmQueryGasLimit with _ | v
  · rfl
  · have hv := hquery v hget
    rcases hc : cast.ToUint64E v with ⟨n, _ | e⟩
    · simp [hc]
    · rw [hc] at hv
      cases hv

theorem ReadWasmConfig.memory_ok (cast : Caster) (defaults : WasmConfig) (flagTrace : Str)
    (opts : AppOptions)
    (hmem : ∀ v, opts.Get flagWasmMemoryCacheSize = some v → (cast.ToUint32E v).2 = none) :
    ReadWasmConfig cast defaults flagTrace opts =
      ReadWasmConfig.query cast flagTrace opts
        { defaults with
          MemoryCacheSize :=
            match opts.Get flagWasmMemoryCacheSize with
            | some v => (cast.ToUint32E v).1
            | none => defaults.MemoryCacheSize } := by
  unfold ReadWasmConfig
  rcases hget : opts.Get flagWasmMemoryCacheSize with _ | v
  · rfl
  · have hv := hmem v hget
    rcases hc : cast.ToUint32E v with ⟨n, _ | e⟩
    · simp [hc]
    · rw [hc] at hv
      cases hv

theorem ReadWasmConfig.trace_error (cast : Caster) (flagTrace : Str) (opts : AppOptions)
    (cfg : WasmConfig) (v : Value) (hget : opts.Get flagTrace = some v) :
    (ReadWasmConfig.trace cast flagTrace opts cfg).2 = (cast.ToBoolE v).2 := by
  unfold ReadWasmConfig.trace
  rw [hget]
  rcases hc : cast.ToBoolE v with ⟨b, _ | e⟩ <;> simp [hc]

theorem ReadWasmConfig.simulation_error (cast : Caster) (flagTrace : Str) (opts : AppOptions)
    (cfg : WasmConfig) (v : Value) (hget : opts.Get flagWasmSimulationGasLimit = some v)
    (hv : v ≠ .str []) (hfail : (cast.ToUint64E v).2 ≠ none) :
    ReadWasmConfig.simulation cast flagTrace opts cfg = (cfg, (cast.ToUint64E v).2) := by
  unfold ReadWasmConfig.simulation
  rw [hget]
  rcases hc : cast.ToUint64E v with ⟨n, _ | e⟩
  · rw [hc] at hfail
    exact absurd rfl hfail
  · simp [hv, hc]

theorem ReadWasmConfig.query_error (cast : Caster) (flagTrace : Str) (opts : AppOptions)
    (cfg : WasmConfig) (v : Value) (hget : opts.Get flagWasmQueryGasLimit = some v)
    (hfail : (cast.ToUint64E v).2 ≠ none) :
    (ReadWasmConfig.query cast flagTrace opts cfg).2 = (cast.ToUint64E v).2 := by
  unfold ReadWasmConfig.query
  rw [hget]
  rcases hc : cast.ToUint64E v with ⟨n, _ | e⟩
  · rw [hc] at hfail
    exact absurd rfl hfail
  · simp [hc]

theorem ReadWasmConfig.memory_error (cast : Caster) (defaults : WasmConfig) (flagTrace : Str)
    (opts : AppOptions) (v : Value) (hget : opts.Get flagWasmMemoryCacheSize = some v)
    (hfail : (cast.ToUint32E v).2 ≠ none) :
    (ReadWasmConfig cast defaults flagTrace opts).2 = (cast.ToUint32E v).2 := by
  unfold ReadWasmConfig
  rw [hget]
  rcases hc : cast.ToUint32E v with ⟨n, _ | e⟩
  · rw [hc] at hfail
    exact absurd rfl hfail
  · simp [hc]

/-- C3: when every option that is present coerces to its type (the empty
string for the simulation gas limit needs no coercion), `ReadWasmConfig`
returns no error, and each field of the configuration is the coerced value of
its own option when that option is present and the default otherwise; with no
option present the result is the default configuration. -/
theorem ReadWasmConfig_resolves (cast : Caster) (defaults : WasmConfig) (flagTrace : Str)
    (opts : AppOptions)
    (hmem : ∀ v, opts.Get flagWasmMemoryCacheSize = some v → (cast.ToUint32E v).2 = none)
    (hquery : ∀ v, opts.Get flagWasmQueryGasLimit = some v → (cast.ToUint64E v).2 = none)
    (hsim : ∀ v, opts.Get flagWasmSimulationGasLimit = some v → v ≠ .str [] →
      (cast.ToUint64E v).2 = none)
    (htrace : ∀ v, opts.Get flagTrace = some v → (cast.ToBoolE v).2 = none) :
    (ReadWasmConfig cast defaults flagTrace opts).2 = none ∧
    (ReadWasmConfig cast defaults flagTrace opts).1.MemoryCacheSize =
      (match opts.Get flagWasmMemoryCacheSize with
       | some v => (cast.ToUint32E v).1
       | none => defaults.MemoryCacheSize) ∧
    (ReadWasmConfig cast defaults flagTrace opts).1.SmartQueryGasLimit =
      (match opts.Get flagWasmQueryGasLimit with
       | some v => (cast.ToUint64E v).1
       | none => defaults.SmartQueryGasLimit) ∧
    (ReadWasmConfig cast defaults flagTrace opts).1.ContractDebugMode =
      (match opts.Get flagTrace with
       | some v => (cast.ToBoolE v).1
       | none => defaults.ContractDebugMode) ∧
    (ReadWasmConfig cast defaults flagTrace opts).1.SimulationGasLimit =
      (match opts.Get flagWasmSimulationGasLimit with
       | some v => if v ≠ .str [] then some (cast.ToUint64E v).1 else defaults.SimulationGasLimit
       | none => defaults.SimulationGasLimit) ∧
    (opts.Get flagWasmMemoryCacheSize = none → opts.Get flagWasmQueryGasLimit = none →
      opts.Get flagWasmSimulationGasLimit = none → opts.Get flagTrace = none →
      ReadWasmConfig cast defaults flagTrace opts = (defaults, none)) := by
  rw [ReadWasmConfig.memory_ok cast defaults flagTrace opts hmem,
    ReadWasmConfig.query_ok cast flagTrace opts _ hquery,
    ReadWasmConfig.simulation_ok cast flagTrace opts _ hsim,
    ReadWasmConfig.trace_ok cast flagTrace opts _ htrace]
  refine ⟨rfl, rfl, rfl, rfl, rfl, ?_⟩
  intro h1 h2 h3 h4
  rw [h1, h2, h3, h4]

/-- C3 at the options `wasm.memory_cache_size = "512"` and `trace = true` over
the defaults 100, 3000000, unset, false: no error, the cache size and the debug
mode take the values of their options, the query gas limit keeps its default. -/
theorem ReadWasmConfig_resolves_witness :
    (ReadWasmConfig sampleCast (DefaultWasmConfig 100 3000000 false) sampleFlagTrace
        (optsOf [(flagWasmMemoryCacheSize, .str (goStr "512")),
          (sampleFlagTrace, .bool true)])).2 = none ∧
    (ReadWasmConfig sampleCast (DefaultWasmConfig 100 3000000 false) sampleFlagTrace
        (optsOf [(flagWasmMemoryCacheSize, .str (goStr "512")),
          (sampleFlagTrace, .bool true)])).1.MemoryCacheSize = 512 ∧
    (ReadWasmConfig sampleCast (DefaultWasmConfig 100 3000000 false) sampleFlagTrace
        (optsOf [(flagWasmMemoryCacheSize, .str (goStr "512")),
          (sampleFlagTrace, .bool true)])).1.SmartQueryGasLimit = 3000000 :=
  have h := ReadWasmConfig_resolves sampleCast (DefaultWasmConfig 100 3000000 false)
    sampleFlagTrace
    (optsOf [(flagWasmMemoryCacheSize, .str (goStr "512")), (sampleFlagTrace, .bool true)])
    (fun _ h => by
      rw [show (optsOf [(flagWasmMemoryCacheSize, .str (goStr "512")),
        (sampleFlagTrace, .bool true)]).Get flagWasmMemoryCacheSize
        = some (.str (goStr "512")) from by decide] at h
      cases h
      decide)
    (fun _ h => by
      rw [show (optsOf [(flagWasmMemoryCacheSize, .str (goStr "512")),
        (sampleFlagTrace, .bool true)]).Get flagWasmQueryGasLimit = none from by decide] at h
      cases h)
    (fun _ h => by
      rw [show (optsOf [(flagWasmMemoryCacheSize, .str (goStr "512")),
        (sampleFlagTrace, .bool true)]).Get flagWasmSimulationGasLimit
        = none from by decide] at h
      cases h)
    (fun _ h => by
      rw [show (optsOf [(flagWasmMemoryCacheSize, .str (goStr "512")),
        (sampleFlagTrace, .bool true)]).Get sampleFlagTrace
        = some (.bool true) from by decide] at h
      cases h
      decide)
  ⟨h.1, h.2.1.trans (by decide), h.2.2.1.trans (by decide)⟩

/-- C2: when the other options resolve without error, a simulation gas limit
given as the empty string leaves `SimulationGasLimit` as the defaults have it
(unset); any other value that coerces to `n` sets it to `n`; any other value
that does not coerce makes `ReadWasmConfig` return the error of the coercion. -/
theorem ReadWasmConfig_simulation_gas_limit (cast : Caster) (defaults : WasmConfig)
    (flagTrace : Str) (opts : AppOptions)
    (hmem : ∀ v, opts.Get flagWasmMemoryCacheSize = some v → (cast.ToUint32E v).2 = none)
    (hquery : ∀ v, opts.Get flagWasmQueryGasLimit = some v → (cast.ToUint64E v).2 = none)
    (htrace : ∀ v, opts.Get flagTrace = some v → (cast.ToBoolE v).2 = none) :
    (opts.Get flagWasmSimulationGasLimit = some (.str []) →
      (ReadWasmConfig cast defaults flagTrace opts).2 = none ∧
      (ReadWasmConfig cast defaults flagTrace opts).1.SimulationGasLimit
        = defaults.SimulationGasLimit) ∧
    (∀ (v : Value) (n : Nat), opts.Get flagWasmSimulationGasLimit = some v → v ≠ .str [] →
      cast.ToUint64E v = (n, none) →
      (ReadWasmConfig cast defaults flagTrace opts).2 = none ∧
      (ReadWasmConfig cast defaults flagTrace opts).1.SimulationGasLimit = some n) ∧
    (∀ v : Value, opts.Get flagWasmSimulationGasLimit = some v → v ≠ .str [] →
      (cast.ToUint64E v).2 ≠ none →
      (ReadWasmConfig cast defaults flagTrace opts).2 ≠ none ∧
      (ReadWasmConfig cast defaults flagTrace opts).2 = (cast.ToUint64E v).2) := by
  rw [ReadWasmConfig.memory_ok cast defaults flagTrace opts hmem,
    ReadWasmConfig.query_ok cast flagTrace opts _ hquery]
  refine ⟨?_, ?_, ?_⟩
  · intro hget
    have hsim : ∀ v, opts.Get flagWasmSimulationGasLimit = some v → v ≠ .str [] →
        (cast.ToUint64E v).2 = none := by
      intro v hv hne
      rw [hget] at hv
      exact absurd (Option.some.inj hv).symm hne
    rw [ReadWasmConfig.simulation_ok cast flagTrace opts _ hsim,
      ReadWasmConfig.trace_ok cast flagTrace opts _ htrace]
    refine ⟨rfl, ?_⟩
    simp [hget]
  · intro v n hget hne hc
    have hsim : ∀ w, opts.Get flagWasmSimulationGasLimit = some w → w ≠ .str [] →
        (cast.ToUint64E w).2 = none := by
      intro w hw _
      rw [hget] at hw
      rw [← Option.some.inj hw, hc]
    rw [ReadWasmConfig.simulation_ok cast flagTrace opts _ hsim,
      ReadWasmConfig.trace_ok cast flagTrace opts _ htrace]
    refine ⟨rfl, ?_⟩
    simp [hget, hne, hc]
  · intro v hget hne hfail
    rw [ReadWasmConfig.simulation_error cast flagTrace opts _ v hget hne hfail]
    exact ⟨hfail, rfl⟩

/-- C2 at the spec's three values over the defaults 100, 3000000, unset,
false: the empty string leaves the limit unset, `5000` sets it to 5000 and
`abc` is an error. -/
theorem ReadWasmConfig_simulation_gas_limit_witness :
    (ReadWasmConfig sampleCast (DefaultWasmConfig 100 3000000 false) sampleFlagTrace
        (optsOf [(flagWasmSimulationGasLimit, .str [])])).1.SimulationGasLimit = none ∧
    (ReadWasmConfig sampleCast (DefaultWasmConfig 100 3000000 false) sampleFlagTrace
        (optsOf [(flagWasmSimulationGasLimit, .str (goStr "5000"))])).1.SimulationGasLimit
      = some 5000 ∧
    (ReadWasmConfig sampleCast (DefaultWasmConfig 100 3000000 false) sampleFlagTrace
        (optsOf [(flagWasmSimulationGasLimit, .str (goStr "abc"))])).2 ≠ none :=
  ⟨((ReadWasmConfig_simulation_gas_limit sampleCast (DefaultWasmConfig 100 3000000 false)
        sampleFlagTrace (optsOf [(flagWasmSimulationGasLimit, .str [])])
        (fun _ h => by
          rw [show (optsOf [(flagWasmSimulationGasLimit, .str [])]).Get flagWasmMemoryCacheSize
            = none from by decide] at h
          cases h)
        (fun _ h => by
          rw [show (optsOf [(flagWasmSimulationGasLimit, .str [])]).Get flagWasmQueryGasLimit
            = none from by decide] at h
          cases h)
        (fun _ h => by
          rw [show (optsOf [(flagWasmSimulationGasLimit, .str [])]).Get sampleFlagTrace
            = none from by decide] at h
          cases h)).1 (by decide)).2,
   ((ReadWasmConfig_simulation_gas_limit sampleCast (DefaultWasmConfig 100 3000000 false)
        sampleFlagTrace (optsOf [(flagWasmSimulationGasLimit, .str (goStr "5000"))])
        (fun _ h => by
          rw [show (optsOf [(flagWasmSimulationGasLimit, .str (goStr "5000"))]).Get
            flagWasmMemoryCacheSize = none from by decide] at h
          cases h)
        (fun _ h => by
          rw [show (optsOf [(flagWasmSimulationGasLimit, .str (goStr "5000"))]).Get
            flagWasmQueryGasLimit = none from by decide] at h
          cases h)
        (fun _ h => by
          rw [show (optsOf [(flagWasmSimulationGasLimit, .str (goStr "5000"))]).Get
            sampleFlagTrace = none from by decide] at h
          cases h)).2.1 (.str (goStr "5000")) 5000 (by decide) (by decide) (by decide)).2,
   ((ReadWasmConfig_simulation_gas_limit sampleCast (DefaultWasmConfig 100 3000000 false)
        sampleFlagTrace (optsOf [(flagWasmSimulationGasLimit, .str (goStr "abc"))])
        (fun _ h => by
          rw [show (optsOf [(flagWasmSimulationGasLimit, .str (goStr "abc"))]).Get
            flagWasmMemoryCacheSize = none from by decide] at h
          cases h)
        (fun _ h => by
          rw [show (optsOf [(flagWasmSimulationGasLimit, .str (goStr "abc"))]).Get
            flagWasmQueryGasLimit = none from by decide] at h
          cases h)
        (fun _ h => by
          rw [show (optsOf [(flagWasmSimulationGasLimit, .str (goStr "abc"))]).Get
            sampleFlagTrace = none from by decide] at h
          cases h)).2.2 (.str (goStr "abc")) (by decide) (by decide) (by decide)).1⟩

/-- C9, as the code has it: an option that is present with a value that does
not coerce to its type makes `ReadWasmConfig` return a non-nil error, for the
simulation gas limit when the value is not the empty string, which is skipped
without coercion. The error is the one the coercion returned, unchanged: that
of the first option, in the order cache size, query gas limit, simulation gas
limit, trace, whose value does not coerce. -/
theorem ReadWasmConfig_coercion_error (cast : Caster) (defaults : WasmConfig) (flagTrace : Str)
    (opts : AppOptions) :
    (∀ v, opts.Get flagWasmMemoryCacheSize = some v → (cast.ToUint32E v).2 ≠ none →
      (ReadWasmConfig cast defaults flagTrace opts).2 = (cast.ToUint32E v).2) ∧
    (∀ v, opts.Get flagWasmQueryGasLimit = some v → (cast.ToUint64E v).2 ≠ none →
      (ReadWasmConfig cast defaults flagTrace opts).2 ≠ none ∧
      ((∀ w, opts.Get flagWasmMemoryCacheSize = some w → (cast.ToUint32E w).2 = none) →
        (ReadWasmConfig cast defaults flagTrace opts).2 = (cast.ToUint64E v).2)) ∧
    (∀ v, opts.Get flagWasmSimulationGasLimit = some v → v ≠ .str [] →
      (cast.ToUint64E v).2 ≠ none →
      (ReadWasmConfig cast defaults flagTrace opts).2 ≠ none ∧
      ((∀ w, opts.Get flagWasmMemoryCacheSize = some w → (cast.ToUint32E w).2 = none) →
        (∀ w, opts.Get flagWasmQueryGasLimit = some w → (cast.ToUint64E w).2 = none) →
        (ReadWasmConfig cast defaults flagTrace opts).2 = (cast.ToUint64E v).2)) ∧
    (∀ v, opts.Get flagTrace = some v → (cast.ToBoolE v).2 ≠ none →
      (ReadWasmConfig cast defaults flagTrace opts).2 ≠ none ∧
      ((∀ w, opts.Get flagWasmMemoryCacheSize = some w → (cast.ToUint32E w).2 = none) →
        (∀ w, opts.Get flagWasmQueryGasLimit = some w → (cast.ToUint64E w).2 = none) →
        (∀ w, opts.Get flagWasmSimulationGasLimit = some w → w ≠ .str [] →
          (cast.ToUint64E w).2 = none) →
        (ReadWasmConfig cast defaults flagTrace opts).2 = (cast.ToBoolE v).2)) := by
  -- the error of each step, whatever configuration it starts from
  have htr : ∀ cfg v, opts.Get flagTrace = some v → (cast.ToBoolE v).2 ≠ none →
      (ReadWasmConfig.trace cast flagTrace opts cfg).2 ≠ none := by
    intro cfg v hget hfail
    rw [ReadWasmConfig.trace_error cast flagTrace opts cfg v hget]
    exact hfail
  have hsi_tr : ∀ cfg v, opts.Get flagTrace = some v → (cast.ToBoolE v).2 ≠ none →
      (ReadWasmConfig.simulation cast flagTrace opts cfg).2 ≠ none := by
    intro cfg v hget hfail
    unfold ReadWasmConfig.simulation
    rcases opts.Get flagWasmSimulationGasLimit with _ | w
    · exact htr cfg v hget hfail
    · by_cases hw : w = .str []
      · simpa [hw] using htr cfg v hget hfail
      · rcases hc : cast.ToUint64E w with ⟨n, _ | e⟩
        · simpa [hw, hc] using htr _ v hget hfail
        · simp [hw, hc]
  have hsi : ∀ cfg v, opts.Get flagWasmSimulationGasLimit = some v → v ≠ .str [] →
      (cast.ToUint64E v).2 ≠ none →
      (ReadWasmConfig.simulation cast flagTrace opts cfg).2 ≠ none := by
    intro cfg v hget hne hfail
    rw [ReadWasmConfig.simulation_error cast flagTrace opts cfg v hget hne hfail]
    exact hfail
  have hqu : ∀ (P : WasmConfig × Option GoError → Prop) cfg,
      (∀ cfg1, P (ReadWasmConfig.simulation cast flagTrace opts cfg1)) →
      (∀ cfg1 e, P (cfg1, some e)) → P (ReadWasmConfig.query cast flagTrace opts cfg) := by
    intro P cfg hstep herr
    unfold ReadWasmConfig.query
    rcases opts.Get flagWasmQueryGasLimit with _ | w
    · exact hstep cfg
    · rcases hc : cast.ToUint64E w with ⟨n, _ | e⟩
      · simpa [hc] using hstep _
      · simpa [hc] using herr _ e
  have hme : ∀ (P : WasmConfig × Option GoError → Prop),
      (∀ cfg1, P (ReadWasmConfig.query cast flagTrace opts cfg1)) →
      (∀ cfg1 e, P (cfg1, some e)) → P (ReadWasmConfig cast defaults flagTrace opts) := by
    intro P hstep herr
    unfold ReadWasmConfig
    rcases opts.Get flagWasmMemoryCacheSize with _ | w
    · exact hstep defaults
    · rcases hc : cast.ToUint32E w with ⟨n, _ | e⟩
      · simpa [hc] using hstep _
      · simpa [hc] using herr _ e
  refine ⟨?_, ?_, ?_, ?_⟩
  · intro v hget hfail
    exact ReadWasmConfig.memory_error cast defaults flagTrace opts v hget hfail
  · intro v hget hfail
    constructor
    · apply hme (fun r => r.2 ≠ none)
      · intro cfg1
        rw [ReadWasmConfig.query_error cast flagTrace opts cfg1 v hget hfail]
        exact hfail
      · intro cfg1 e
        simp
    · intro hmem
      rw [ReadWasmConfig.memory_ok cast defaults flagTrace opts hmem,
        ReadWasmConfig.query_error cast flagTrace opts _ v hget hfail]
  · intro v hget hne hfail
    constructor
    · apply hme (fun r => r.2 ≠ none)
      · intro cfg1
        apply hqu (fun r => r.2 ≠ none)
        · intro cfg2
          exact hsi cfg2 v hget hne hfail
        · intro cfg2 e
          simp
      · intro cfg1 e
        simp
    · intro hmem hquery
      rw [ReadWasmConfig.memory_ok cast defaults flagTrace opts hmem,
        ReadWasmConfig.query_ok cast flagTrace opts _ hquery,
        ReadWasmConfig.simulation_error cast flagTrace opts _ v hget hne hfail]
  · intro v hget hfail
    constructor
    · apply hme (fun r => r.2 ≠ none)
      · intro cfg1
        apply hqu (fun r => r.2 ≠ none)
        · intro cfg2
          exact hsi_tr cfg2 v hget hfail
        · intro cfg2 e
          simp
      · intro cfg1 e
        simp
    · intro hmem hquery hsim
      rw [ReadWasmConfig.memory_ok cast defaults flagTrace opts hmem,
        ReadWasmConfig.query_ok cast flagTrace opts _ hquery,
        ReadWasmConfig.simulation_ok cast flagTrace opts _ hsim,
        ReadWasmConfig.trace_error cast flagTrace opts _ v hget]

/-- C9 as amended, at `wasm.query_gas_limit = "abc"`: the error returned is the
one of the coercion. -/
theorem ReadWasmConfig_coercion_error_witness :
    (ReadWasmConfig sampleCast (DefaultWasmConfig 100 3000000 false) sampleFlagTrace
        (optsOf [(flagWasmQueryGasLimit, .str (goStr "abc"))])).2
      = some (castError (.str (goStr "abc")) (goStr "uint64")) :=
  (((ReadWasmConfig_coercion_error sampleCast (DefaultWasmConfig 100 3000000 false)
      sampleFlagTrace (optsOf [(flagWasmQueryGasLimit, .str (goStr "abc"))])).2.1
      (.str (goStr "abc")) (by decide) (by decide)).2
      (fun _ h => by
        rw [show (optsOf [(flagWasmQueryGasLimit, .str (goStr "abc"))]).Get
          flagWasmMemoryCacheSize = none from by decide] at h
        cases h)).trans (by decide)

/-- C9 fails as stated: the simulation gas limit given as the empty string does
not coerce, and `ReadWasmConfig` returns no error; and the error for
`wasm.query_gas_limit = "abc"` is equal to the error for
`wasm.simulation_gas_limit = "abc"` and does not contain the option name. -/
theorem ReadWasmConfig_coercion_error_counterexample :
    (sampleCast.ToUint64E (.str [])).2 ≠ none ∧
    (ReadWasmConfig sampleCast (DefaultWasmConfig 100 3000000 false) sampleFlagTrace
        (optsOf [(flagWasmSimulationGasLimit, .str [])])).2 = none ∧
    (ReadWasmConfig sampleCast (DefaultWasmConfig 100 3000000 false) sampleFlagTrace
        (optsOf [(flagWasmQueryGasLimit, .str (goStr "abc"))])).2
      = (ReadWasmConfig sampleCast (DefaultWasmConfig 100 3000000 false) sampleFlagTrace
        (optsOf [(flagWasmSimulationGasLimit, .str (goStr "abc"))])).2 ∧
    (∀ err, (ReadWasmConfig sampleCast (DefaultWasmConfig 100 3000000 false) sampleFlagTrace
        (optsOf [(flagWasmQueryGasLimit, .str (goStr "abc"))])).2 = some err →
      ¬ flagWasmQueryGasLimit <:+: err.msg) := by
  refine ⟨by decide, by decide, by decide, ?_⟩
  intro err herr hin
  have hval : (ReadWasmConfig sampleCast (DefaultWasmConfig 100 3000000 false) sampleFlagTrace
      (optsOf [(flagWasmQueryGasLimit, .str (goStr "abc"))])).2
      = some (castError (.str (goStr "abc")) (goStr "uint64")) := by decide
  rw [hval] at herr
  rw [← Option.some.inj herr] at hin
  have hb := (strings.Contains_iff _ _).2 hin
  revert hb
  decide

/-! ## Migration registration: claims -/

/-- C5: `ConsensusVersion` is 3, and on a configurator that records its calls
`RegisterServices` registers, after the two servers, `Migrate1to2` for origin
version 1 and then `Migrate2to3` for origin version 2, so that the origin
versions registered are those from 1 up to `ConsensusVersion - 1`, each once
and in increasing order; a registration that returns an error makes it panic
with that error, and nothing is registered after it. -/
theorem RegisterServices_migrations {K S : Type} (am : AppModule K S) (ModuleName : Str)
    (answer : List (Call K S) → Option GoError) :
    am.ConsensusVersion = 3 ∧
    (∀ err,
      answer [.msgServer am.keeper, .queryServer am.keeper,
        .migration ModuleName 1 (.Migrate1to2 ⟨am.keeper, am.legacySubspace⟩)] = some err →
      am.RegisterServices ModuleName (recorder answer) [] =
        ([.msgServer am.keeper, .queryServer am.keeper,
          .migration ModuleName 1 (.Migrate1to2 ⟨am.keeper, am.legacySubspace⟩)],
         .panic (.err err))) ∧
    (∀ err,
      answer [.msgServer am.keeper, .queryServer am.keeper,
        .migration ModuleName 1 (.Migrate1to2 ⟨am.keeper, am.legacySubspace⟩)] = none →
      answer [.msgServer am.keeper, .queryServer am.keeper,
        .migration ModuleName 1 (.Migrate1to2 ⟨am.keeper, am.legacySubspace⟩),
        .migration ModuleName 2 (.Migrate2to3 ⟨am.keeper, am.legacySubspace⟩)] = some err →
      am.RegisterServices ModuleName (recorder answer) [] =
        ([.msgServer am.keeper, .queryServer am.keeper,
          .migration ModuleName 1 (.Migrate1to2 ⟨am.keeper, am.legacySubspace⟩),
          .migration ModuleName 2 (.Migrate2to3 ⟨am.keeper, am.legacySubspace⟩)],
         .panic (.err err))) ∧
    (answer [.msgServer am.keeper, .queryServer am.keeper,
        .migration ModuleName 1 (.Migrate1to2 ⟨am.keeper, am.legacySubspace⟩)] = none →
      answer [.msgServer am.keeper, .queryServer am.keeper,
        .migration ModuleName 1 (.Migrate1to2 ⟨am.keeper, am.legacySubspace⟩),
        .migration ModuleName 2 (.Migrate2to3 ⟨am.keeper, am.legacySubspace⟩)] = none →
      am.RegisterServices ModuleName (recorder answer) [] =
        ([.msgServer am.keeper, .queryServer am.keeper,
          .migration ModuleName 1 (.Migrate1to2 ⟨am.keeper, am.legacySubspace⟩),
          .migration ModuleName 2 (.Migrate2to3 ⟨am.keeper, am.legacySubspace⟩)],
         .ret ()) ∧
      origins (am.RegisterServices ModuleName (recorder answer) []).1
        = List.range' 1 (am.ConsensusVersion - 1)) := by
  refine ⟨rfl, ?_, ?_, ?_⟩
  · intro err h1
    simp [AppModule.RegisterServices, recorder, h1]
  · intro err h1 h2
    simp [AppModule.RegisterServices, recorder, h1, h2]
  · intro h1 h2
    have hres : am.RegisterServices ModuleName (recorder answer) [] =
        ([.msgServer am.keeper, .queryServer am.keeper,
          .migration ModuleName 1 (.Migrate1to2 ⟨am.keeper, am.legacySubspace⟩),
          .migration ModuleName 2 (.Migrate2to3 ⟨am.keeper, am.legacySubspace⟩)],
         .ret ()) := by
      simp [AppModule.RegisterServices, recorder, h1, h2]
    refine ⟨hres, ?_⟩
    rw [hres]
    rfl

/-- C5 on a configurator that accepts every registration, and on one that
rejects the registration for origin version 1. -/
theorem RegisterServices_migrations_witness :
    origins ((⟨0, 0⟩ : AppModule Nat Nat).RegisterServices (goStr "wasm")
        (recorder (fun _ => none)) []).1 = [1, 2] ∧
    (⟨0, 0⟩ : AppModule Nat Nat).RegisterServices (goStr "wasm")
        (recorder (fun log => if log.length = 3 then some ⟨goStr "duplicate"⟩ else none)) []
      = ([.msgServer 0, .queryServer 0, .migration (goStr "wasm") 1 (.Migrate1to2 ⟨0, 0⟩)],
         .panic (.err ⟨goStr "duplicate"⟩)) :=
  ⟨((RegisterServices_migrations (⟨0, 0⟩ : AppModule Nat Nat) (goStr "wasm")
      (fun _ => none)).2.2.2 rfl rfl).2,
   (RegisterServices_migrations (⟨0, 0⟩ : AppModule Nat Nat) (goStr "wasm")
      (fun log => if log.length = 3 then some ⟨goStr "duplicate"⟩ else none)).2.1
      ⟨goStr "duplicate"⟩ rfl⟩

/-! ## Genesis validation: claims -/

/-- C10: when the codec cannot decode the blob, `AppModuleBasic.ValidateGenesis`
returns the error of the codec from the state the codec left, whatever the
validator is, so the validator is not called; otherwise it returns what the
validator returns on the decoded state, unchanged. -/
theorem ValidateGenesis_decode_then_validate {G σ : Type} (zero : G)
    (marshaler : JSONCodec G σ) (message : Str) (s : σ) :
    (∀ (s1 : σ) (data : G) (err : GoError),
      marshaler.UnmarshalJSON message zero s = (s1, data, some err) →
      ∀ validate : G → σ → σ × Option GoError,
        AppModuleBasic.ValidateGenesis zero validate marshaler message s = (s1, some err)) ∧
    (∀ (s1 : σ) (data : G),
      marshaler.UnmarshalJSON message zero s = (s1, data, none) →
      ∀ validate : G → σ → σ × Option GoError,
        AppModuleBasic.ValidateGenesis zero validate marshaler message s = validate data s1) := by
  constructor
  · intro s1 data err hdec validate
    simp [AppModuleBasic.ValidateGenesis, hdec]
  · intro s1 data hdec validate
    simp [AppModuleBasic.ValidateGenesis, hdec]

/-- C10 on a codec and a validator that count their calls: a blob that does not
decode gives the error of the codec with no validation counted; a blob that
decodes to an odd number gives the error of the validator; a blob that decodes
to an even number gives `nil`. -/
theorem ValidateGenesis_decode_then_validate_witness :
    AppModuleBasic.ValidateGenesis 0 evenValidator digitCodec (goStr "x1") (0, 0)
      = ((1, 0), some ⟨goStr "invalid character"⟩) ∧
    AppModuleBasic.ValidateGenesis 0 evenValidator digitCodec (goStr "7") (0, 0)
      = ((1, 1), some ⟨goStr "odd genesis"⟩) ∧
    AppModuleBasic.ValidateGenesis 0 evenValidator digitCodec (goStr "8") (0, 0)
      = ((1, 1), none) :=
  ⟨(ValidateGenesis_decode_then_validate 0 digitCodec (goStr "x1") (0, 0)).1
      (1, 0) 0 ⟨goStr "invalid character"⟩ (by decide) evenValidator,
   ((ValidateGenesis_decode_then_validate 0 digitCodec (goStr "7") (0, 0)).2
      (1, 0) 7 (by decide) evenValidator).trans (by decide),
   ((ValidateGenesis_decode_then_validate 0 digitCodec (goStr "8") (0, 0)).2
      (1, 0) 8 (by decide) evenValidator).trans (by decide)⟩

/-! ## The installed pre-run hook -/

/-- The hook installed by `AddModuleInitFlags` runs the compatibility gate
first: when the gate returns an error or panics the earlier hook of the command
does not run, and when the gate passes the result is that of the earlier hook,
`nil` when there was none. -/
theorem AddModuleInitFlags.PreRunE_gate_first {Cmd σ : Type}
    (libwasmvmVersion : σ → Str × Option GoError) (readBuildInfo : σ → Option BuildInfo)
    (old : Option (preRunFn Cmd σ)) (cmd : Cmd) (args : List Str) (s : σ) :
    AddModuleInitFlags.PreRunE libwasmvmVersion readBuildInfo old cmd args s =
      (match checkLibwasmVersion (libwasmvmVersion s) (readBuildInfo s) with
       | .ret none =>
         (match old with
          | some pfn => pfn cmd args s
          | none => (s, .ret none))
       | .ret (some err) => (s, .ret (some err))
       | .panic v => (s, .panic v)) := by
  unfold AddModuleInitFlags.PreRunE
  simp only [chainPreRuns, checkLibwasmVersionFn]
  rcases checkLibwasmVersion (libwasmvmVersion s) (readBuildInfo s) with (_ | e) | v
  · cases old with
    | none => rfl
    | some pfn =>
      simp only [chainPreRuns]
      rcases pfn cmd args s with ⟨s2, (_ | e) | v⟩ <;> rfl
  · rfl
  · rfl

end wasm
